import Mathlib

/-!
# Verification of the hoe_parser crawler core

A shallow embedding of the round-robin proxy HTTP client
(`internal/modules/request_client`), the intimcity field extractors
(`internal/scraper/intimcity.go` and its earlier revision), the
intimcity.gold link discovery (`internal/scraper/intimcity_gold.go`)
and the ClickHouse flattening adapter
(`internal/clickhouse/adapter.go`), together with theorems settling the
frozen specification claims about them.

Conventions: Go machine integers are modelled as `Int`/`Nat` with the
unsigned conversions spelled out (`toUInt32` etc.); Go's
`(value, error)` pairs are modelled as pairs of options; external
library calls (the regexp engine, `net/http.Client.Do`, `url.Parse`,
the HTML document) are oracle parameters, while all control flow of the
repository's own functions is translated structurally.
-/

/-! ## Basic Go string helpers -/

/-- Numeric value of a list of decimal digit characters (most significant first). -/
def digitsToNat (l : List Char) : Nat :=
  l.foldl (fun acc c => acc * 10 + (c.toNat - 48)) 0

/-- Go `strconv.Atoi`: an optional sign followed by at least one decimal digit;
anything else is an error (`none`). -/
def goAtoi (s : String) : Option Int :=
  match s.data with
  | [] => none
  | '-' :: rest =>
    if rest ≠ [] ∧ rest.all Char.isDigit then some (-(digitsToNat rest : Int)) else none
  | '+' :: rest =>
    if rest ≠ [] ∧ rest.all Char.isDigit then some ((digitsToNat rest : Int)) else none
  | l =>
    if l.all Char.isDigit then some ((digitsToNat l : Int)) else none

/-- Go `strings.ToLower` (character-wise lowering suffices for the URLs involved). -/
def toLowerStr (s : String) : String := String.mk (s.data.map Char.toLower)

/-- Go `strings.ReplaceAll(s, string(c), "")` for a single-character pattern
(every pattern `ReplaceAll` is called with in the sources is one character):
removes every occurrence of that character. -/
def removeChar (s : String) (c : Char) : String :=
  String.mk (s.data.filter (fun d => d ≠ c))

/-- Go `strings.TrimSpace`. -/
def goTrimSpace (s : String) : String :=
  String.mk (((s.data.dropWhile Char.isWhitespace).reverse.dropWhile
    Char.isWhitespace).reverse)

/-- Whether `pat` occurs as a contiguous run inside the character list. -/
def listHasInfix (pat : List Char) : List Char → Bool
  | [] => pat.isEmpty
  | c :: cs => pat.isPrefixOf (c :: cs) || listHasInfix pat cs

/-- Go `strings.Contains`: substring containment, decided on the character list. -/
def hasSubstr (s pat : String) : Bool := listHasInfix pat.data s.data

/-- Go conversion `uint32(v)` applied to a (possibly negative) integer. -/
def toUInt32 (i : Int) : Nat := (i % 4294967296).toNat

/-- Go conversion `uint16(v)`. -/
def toUInt16 (i : Int) : Nat := (i % 65536).toNat

/-- Go conversion `uint8(v)`. -/
def toUInt8 (i : Int) : Nat := (i % 256).toNat

/-! ## The round-robin proxy client (`request_client/client.go`) -/

/-- An HTTP response; its contents are irrelevant to the claims, only its identity. -/
structure Response where
  status : Nat
deriving Repr, DecidableEq

/-- The errors `ProxyClient` can produce, mirroring the `fmt.Errorf` wrappings
of the source (`%w` wrapping becomes a constructor argument). -/
inductive ReqError where
  /-- `invalid proxy URL %s: %w` from `createClient`. -/
  | invalidProxyURL (u : String)
  /-- `request failed with %s after %d attempts: %w` from `doRequestWithProxy`. -/
  | requestFailed (proxyInfo : String) (attempts : Nat) (cause : String)
  /-- `unexpected end of retry loop`. -/
  | unexpectedEndOfRetryLoop
  /-- `all proxy attempts failed, last error: %w`. -/
  | allProxyAttemptsFailed (last : ReqError)
  /-- `no working proxy found and fallback disabled`. -/
  | noWorkingProxyFallbackDisabled
deriving Repr, DecidableEq

/-- An outgoing HTTP request as built by `http.NewRequest` plus header setting. -/
structure Request where
  method : String
  url : String
  body : Option String
  headers : List (String × String)
deriving Repr, DecidableEq

/-- The external `net/http` transport: given the proxy URL in use, the retry
attempt number and the built request, it either yields a response or a
transport error message.  `net/http.Client.Do` returns exactly one of the two,
which the `Except` type enforces. -/
def Transport : Type := String → Nat → Request → Except String Response

/-- `ProxyClient` struct (the mutex only guards `currentIdx` and is represented
by the explicit state threading). -/
structure ProxyClient where
  proxies : List String
  currentIdx : Nat
  timeout : Nat
  maxRetries : Nat
  fallbackOK : Bool
deriving Repr, DecidableEq

/-- `NewProxyClient`: timeout defaults to 30s, `maxRetries` to 3,
`fallbackOK` to `false`. -/
def NewProxyClient (proxies : List String) (timeout : Nat) : ProxyClient :=
  { proxies := proxies
    currentIdx := 0
    timeout := if timeout = 0 then 30 else timeout
    maxRetries := 3
    fallbackOK := false }

/-- `getNextProxyIndex`: returns the current index and advances the cursor
modulo the pool size; on an empty pool it returns 0 and leaves the state. -/
def getNextProxyIndex (pc : ProxyClient) : Nat × ProxyClient :=
  if pc.proxies.length = 0 then (0, pc)
  else (pc.currentIdx, { pc with currentIdx := (pc.currentIdx + 1) % pc.proxies.length })

/-- The default `User-Agent` header value set on every request. -/
def userAgent : String :=
  "Mozilla/5.0 (Windows NT 10.0; Win64; x64) AppleWebKit/537.36 (KHTML, like Gecko) Chrome/91.0.4472.124 Safari/537.36"

/-- `req.Header.Set`: replaces an existing header value or appends a new one. -/
def setHeader (hs : List (String × String)) (k v : String) : List (String × String) :=
  if hs.any (fun p => p.1 == k) then
    hs.map (fun p => if p.1 == k then (k, v) else p)
  else hs ++ [(k, v)]

/-- Build the request of one retry attempt: the body is re-materialized from
the buffered bytes, the caller's headers are set, then the default
`User-Agent`. -/
def mkRequest (method url : String) (bodyBytes : Option String)
    (headers : List (String × String)) : Request :=
  { method := method
    url := url
    body := bodyBytes
    headers := setHeader (headers.foldl (fun acc kv => setHeader acc kv.1 kv.2) []) "User-Agent" userAgent }

/-- The `proxyInfo` string of the final error message. -/
def proxyInfoOf (proxyURL : String) : String :=
  if proxyURL = "" then "no proxy" else "proxy " ++ proxyURL

/-- The retry loop of `doRequestWithProxy` (`for attempt := 0; attempt <
pc.maxRetries; attempt++`).  Returns the `(resp, err)` pair and the list of
requests actually handed to the transport. -/
def doAttempts (tr : Transport) (proxyURL method url : String) (bodyBytes : Option String)
    (headers : List (String × String)) (maxRetries attempt : Nat) :
    (Option Response × Option ReqError) × List Request :=
  if _h : attempt < maxRetries then
    let req := mkRequest method url bodyBytes headers
    match tr proxyURL attempt req with
    | .ok resp => ((some resp, none), [req])
    | .error cause =>
      if attempt = maxRetries - 1 then
        ((none, some (.requestFailed (proxyInfoOf proxyURL) maxRetries cause)), [req])
      else
        let rest := doAttempts tr proxyURL method url bodyBytes headers maxRetries (attempt + 1)
        (rest.1, req :: rest.2)
  else
    ((none, some .unexpectedEndOfRetryLoop), [])
termination_by maxRetries - attempt

/-- `doRequestWithProxy`: build the client (the external `url.Parse` is the
`parseOK` oracle; an unparseable non-empty proxy URL is fatal for this proxy's
attempts), then run the retry loop from attempt 0. -/
def doRequestWithProxy (pc : ProxyClient) (tr : Transport) (parseOK : String → Bool)
    (method url : String) (body : Option String) (headers : List (String × String))
    (proxyURL : String) : (Option Response × Option ReqError) × List Request :=
  if proxyURL ≠ "" ∧ parseOK proxyURL = false then
    ((none, some (.invalidProxyURL proxyURL)), [])
  else
    doAttempts tr proxyURL method url body headers pc.maxRetries 0

/-- The indices visited by the proxy loop of `Do`:
`proxyIdx := (startIdx + i) % len(pc.proxies)` for `i = 0 .. N-1`. -/
def attemptIndices (n startIdx : Nat) : List Nat :=
  (List.range n).map (fun i => (startIdx + i) % n)

/-- The proxy loop of `Do`: try each index in order; an attempt whose error is
`nil` returns immediately with its response; otherwise `lastErr` is updated and
the loop continues.  The first component is `some r` when the loop returned
early with response `r`, the second is the final `lastErr`, the third records
every attempt made. -/
def tryProxies (f : Nat → (Option Response × Option ReqError) × List Request) :
    List Nat → Option (Option Response) × Option ReqError × List (Nat × List Request)
  | [] => (none, none, [])
  | i :: rest =>
    let r := f i
    match r.1.2 with
    | none => (some r.1.1, none, [(i, r.2)])
    | some e =>
      let next := tryProxies f rest
      (next.1, some (next.2.1.getD e), (i, r.2) :: next.2.2)

/-- The full observable outcome of one `ProxyClient.Do` call: the returned
`(resp, err)` pair, the updated client state, and which attempts were made. -/
structure DoResult where
  resp : Option Response
  err : Option ReqError
  client : ProxyClient
  proxyAttempts : List (Nat × List Request)
  fallbackAttempt : Option (List Request)
deriving Repr, DecidableEq

/-- `ProxyClient.Do`: if the pool is non-empty, advance the cursor once, try all
proxies starting at the selected index; if no proxy succeeded and `fallbackOK`,
make one direct attempt; otherwise wrap `lastErr` or report that no working
proxy was found. -/
def Do (pc : ProxyClient) (tr : Transport) (parseOK : String → Bool)
    (method url : String) (body : Option String) (headers : List (String × String)) :
    DoResult :=
  let f := fun (idx : Nat) =>
    doRequestWithProxy pc tr parseOK method url body headers (pc.proxies.getD idx "")
  let step :=
    if 0 < pc.proxies.length then
      let s := getNextProxyIndex pc
      (tryProxies f (attemptIndices pc.proxies.length s.1), s.2)
    else
      (((none : Option (Option Response)), (none : Option ReqError),
        ([] : List (Nat × List Request))), pc)
  let pc' := step.2
  match step.1.1 with
  | some r1 =>
    { resp := r1, err := none, client := pc',
      proxyAttempts := step.1.2.2, fallbackAttempt := none }
  | none =>
    if pc.fallbackOK then
      let fb := doRequestWithProxy pc tr parseOK method url body headers ""
      match fb.1.2 with
      | none =>
        { resp := fb.1.1, err := none, client := pc',
          proxyAttempts := step.1.2.2, fallbackAttempt := some fb.2 }
      | some e =>
        { resp := none, err := some (.allProxyAttemptsFailed e), client := pc',
          proxyAttempts := step.1.2.2, fallbackAttempt := some fb.2 }
    else
      match step.1.2.1 with
      | some e =>
        { resp := none, err := some (.allProxyAttemptsFailed e), client := pc',
          proxyAttempts := step.1.2.2, fallbackAttempt := none }
      | none =>
        { resp := none, err := some .noWorkingProxyFallbackDisabled, client := pc',
          proxyAttempts := step.1.2.2, fallbackAttempt := none }

/-- `K` consecutive top-level `Do` calls, threading the client state. -/
def doCalls (tr : Transport) (parseOK : String → Bool) (method url : String)
    (body : Option String) (headers : List (String × String)) :
    Nat → ProxyClient → ProxyClient
  | 0, pc => pc
  | k + 1, pc => doCalls tr parseOK method url body headers k
      (Do pc tr parseOK method url body headers).client

/-- A transport on which every attempt fails (connection-level error). -/
def AlwaysFails (tr : Transport) : Prop :=
  ∀ p n r, ∃ e, tr p n r = .error e

/-! ## The intimcity listing scraper: personal info

Two revisions exist in the repository.  `internal/scraper/intimcity.go`
extracts personal fields by running prioritized regex patterns over the page
text, gating each match by a plausibility range.  The earlier revision
(first document of `src/unnamed/part_001`) reads dedicated element ids
(`#tdankage`, ...) and stores any integer that parses, without range checks. -/

/-- The protobuf `PersonalInfo` message (fields are Go `int32` / `string`). -/
structure PersonalInfo where
  name : String := ""
  age : Int := 0
  height : Int := 0
  weight : Int := 0
  breastSize : Int := 0
  hairColor : String := ""
  eyeColor : String := ""
  bodyType : String := ""
deriving Repr, DecidableEq

/-- Age patterns of `extractPersonalInfo`, most specific first. -/
def agePatterns : List String :=
  ["Возраст\\s*(\\d+)", "(\\d+)\\s+(?:года|лет)", "возраст[:\\s]*(\\d+)"]

/-- Height patterns. -/
def heightPatterns : List String :=
  ["Рост\\s*(\\d+)", "(\\d+)\\s*см", "рост[:\\s]*(\\d+)"]

/-- Weight patterns. -/
def weightPatterns : List String :=
  ["Вес\\s*(\\d+)", "(\\d+)\\s*кг", "вес[:\\s]*(\\d+)"]

/-- Breast-size patterns. -/
def breastPatterns : List String :=
  ["Грудь\\s*(\\d+)", "(\\d+)\\s*размер", "размер[:\\s]*(\\d+)"]

/-- One field's strategy loop in `extractPersonalInfo`
(`internal/scraper/intimcity.go`): for each pattern (case-insensitive), take
the first submatch via the external regexp engine `find`, parse it, and accept
it only when strictly inside `(lo, hi)`; an absent match, unparseable match or
out-of-range value falls through to the next pattern. -/
def firstValidMatch (find : String → String → Option String) (mainText : String)
    (lo hi : Int) : List String → Option Int
  | [] => none
  | pattern :: rest =>
    match find ("(?i)" ++ pattern) mainText with
    | some m =>
      match goAtoi m with
      | some v =>
        if lo < v ∧ v < hi then some v
        else firstValidMatch find mainText lo hi rest
      | none => firstValidMatch find mainText lo hi rest
    | none => firstValidMatch find mainText lo hi rest

/-- `IntimcityScraper.extractPersonalInfo` of `internal/scraper/intimcity.go`:
age gated by `age > 16 && age < 80`, height by `height > 140 && height < 220`,
weight by `weight > 30 && weight < 150`, breast size by
`size > 0 && size < 10`. -/
def extractPersonalInfo (find : String → String → Option String)
    (mainText : String) : PersonalInfo :=
  { age := (firstValidMatch find mainText 16 80 agePatterns).getD 0
    height := (firstValidMatch find mainText 140 220 heightPatterns).getD 0
    weight := (firstValidMatch find mainText 30 150 weightPatterns).getD 0
    breastSize := (firstValidMatch find mainText 0 10 breastPatterns).getD 0 }

/-- The texts of the id-addressed elements the earlier scraper revision reads
(`doc.Find("#tdankage").Text()` etc.); an absent element yields `""`. -/
structure DocV1 where
  title : String := ""
  tdankage : String := ""
  tdankhei : String := ""
  tdankwei : String := ""
  tdankbre : String := ""
  tdankcloth : String := ""
  tdankinhc : String := ""
deriving Repr, DecidableEq

/-- `IntimcityScraper.extractPersonalInfo` of the earlier revision (first
document of `src/unnamed/part_001`, lines 79-121): every field that is
non-empty and parses as an integer is stored as-is, with no plausibility
check. -/
def extractPersonalInfoById (doc : DocV1) : PersonalInfo :=
  { name := if doc.title ≠ "" then goTrimSpace doc.title else ""
    age := if doc.tdankage ≠ "" then (goAtoi (goTrimSpace doc.tdankage)).getD 0 else 0
    height := if doc.tdankhei ≠ "" then (goAtoi (goTrimSpace doc.tdankhei)).getD 0 else 0
    weight := if doc.tdankwei ≠ "" then (goAtoi (goTrimSpace doc.tdankwei)).getD 0 else 0
    breastSize := if doc.tdankbre ≠ "" then (goAtoi (goTrimSpace doc.tdankbre)).getD 0 else 0
    bodyType := if doc.tdankcloth ≠ "" then goTrimSpace doc.tdankcloth else ""
    hairColor := if doc.tdankinhc ≠ "" then goTrimSpace doc.tdankinhc else "" }

/-! ## The intimcity listing scraper: prices -/

/-- Go conversion `int32(v)`. -/
def toInt32 (i : Int) : Int := (i + 2147483648) % 4294967296 - 2147483648

/-- `extractPrice` of the earlier scraper revision (first document of
`src/unnamed/part_001`, lines 228-240).  Note that the second statement
replaces over `text` again (not over `numStr`), so the removal of ordinary
spaces in the first statement is discarded: only the narrow no-break space
U+202F, the thin space U+2009 and the ruble sign are actually stripped. -/
def extractPrice (text : String) : Int :=
  let numStr := removeChar text ' '
  let numStr := removeChar text ' '
  let numStr := removeChar numStr ' '
  let numStr := removeChar numStr '₽'
  match goAtoi numStr with
  | some price => toInt32 price
  | none => 0

/-- The capture of `(\d+)\s*(?:000)?` via `FindStringSubmatch`: the leftmost
maximal run of decimal digits, if any. -/
def firstDigitRun : List Char → Option String
  | [] => none
  | c :: cs =>
    if c.isDigit then some (String.mk ((c :: cs).takeWhile Char.isDigit))
    else firstDigitRun cs

/-- The bare-numeric-token heuristic of
`IntimcityScraper.extractPricingInfo` (`internal/scraper/intimcity.go`, lines
242-254): run only on a cell text containing `"000"` or of byte length
strictly between 2 and 8; the captured leading number is multiplied by 1000
when in `[5, 100]`, stored as-is when in `[1000, 100000]`, and otherwise
discarded (`none` = no `"base"` entry written for this cell). -/
def extractBasePriceToken (text : String) : Option Int :=
  if hasSubstr text "000" ∨ (2 < text.utf8ByteSize ∧ text.utf8ByteSize < 8) then
    match firstDigitRun text.data with
    | some digits =>
      match goAtoi digits with
      | some price =>
        if 5 ≤ price ∧ price ≤ 100 then some (toInt32 (price * 1000))
        else if 1000 ≤ price ∧ price ≤ 100000 then some (toInt32 price)
        else none
      | none => none
    | none => none
  else none

/-! ## Link discovery (`internal/scraper/intimcity_gold.go`) -/

/-- `ListingLink` struct. -/
structure ListingLink where
  url : String
  title : String
  id : String
deriving Repr, DecidableEq

/-- Does the character list start with `stem` immediately followed by a
decimal digit?  This is `regexp.MatchString` anchored at the current
position for a pattern of the form `stem\d+`. -/
def stemThenDigit : List Char → List Char → Bool
  | [], [] => false
  | [], d :: _ => d.isDigit
  | _ :: _, [] => false
  | s :: ss, c :: cs => s == c && stemThenDigit ss cs

/-- Unanchored `regexp.MatchString` for a pattern of the form `stem\d+`. -/
def containsStemDigit (stem : List Char) : List Char → Bool
  | [] => false
  | c :: cs => stemThenDigit stem (c :: cs) || containsStemDigit stem cs

/-- The listing URL patterns of `isListingLink` (each is `stem\d+`). -/
def listingPatterns : List String :=
  ["anketa", "profile", "user", "girl", "id", "listing"]

/-- The exclusion patterns of `isListingLink` (plain substrings). -/
def excludePatterns : List String :=
  ["page=", "p=", "category", "search", "filter", "sort",
   "login", "register", "contact", "about", "help",
   "javascript:", "mailto:", "tel:", "#"]

/-- `IntimcityGoldScraper.isListingLink`: lowercase the URL; the first loop
returns `true` as soon as a listing pattern matches; the second loop returns
`false` as soon as an exclusion pattern occurs; the final statement returns
`false`. -/
def isListingLink (url : String) : Bool :=
  let urlLower := toLowerStr url
  if listingPatterns.any (fun p => containsStemDigit p.data urlLower.data) then
    true
  else if excludePatterns.any (fun p => hasSubstr urlLower p) then
    false
  else
    false

/-- `IntimcityGoldScraper.removeDuplicateLinks`: keep the first occurrence of
each URL, tracked in a `seen` set. -/
def removeDuplicateLinks (links : List ListingLink) : List ListingLink :=
  (links.foldl
    (fun acc link =>
      if acc.2.contains link.url then acc
      else (acc.1 ++ [link], link.url :: acc.2))
    (([] : List ListingLink), ([] : List String))).1

/-- One cycle of `StartContinuousMonitoring`'s page loop: for every page `1 ..
totalPages`, a failed `scrapePageLinks` (modelled by the per-page oracle
returning `none`) is logged and skipped; a successful one has each link's URL
sent to the channel.  The returned list is the sequence of URLs sent. -/
def runCycle (scrape : Nat → Option (List ListingLink)) (totalPages : Nat) : List String :=
  (List.range totalPages).foldl
    (fun emitted i =>
      match scrape (i + 1) with
      | some links => emitted ++ links.map (fun l => l.url)
      | none => emitted)
    []

/-- `n` cycles of the infinite loop of `StartContinuousMonitoring` (the Go loop
restarts at page 1 unconditionally after the last page; the page scrape oracle
is per-page and cycle-independent, modelling a site with no new links). -/
def runCycles (scrape : Nat → Option (List ListingLink)) (totalPages : Nat) :
    Nat → List String
  | 0 => []
  | n + 1 => runCycles scrape totalPages n ++ runCycle scrape totalPages

/-! ## Total page discovery (`IntimcityGoldScraper.getTotalPages`) -/

/-- What `getTotalPages` reads from the fetched main page: for every anchor,
its `href` attribute (when present) and its trimmed text; plus the document's
whole visible text. -/
structure GoldDoc where
  links : List (Option String × String)
  text : String
deriving Repr, DecidableEq

/-- Go's `\s` whitespace class: `[\t\n\f\r ]`. -/
def isSpaceGo (c : Char) : Bool :=
  c == ' ' || c == '\t' || c == '\n' || c == Char.ofNat 12 || c == '\r'

/-- The alternation `(?:page=|p=|страница=)` of the page-number pattern. -/
def pageMarkers : List String := ["page=", "p=", "страница="]

/-- Try each marker at the current position; on a marker hit followed by at
least one digit, capture the digit run. -/
def matchMarkerAt (markers : List String) (l : List Char) : Option Nat :=
  match markers with
  | [] => none
  | m :: ms =>
    if m.data.isPrefixOf l then
      let ds := (l.drop m.data.length).takeWhile Char.isDigit
      if ds ≠ [] then some (digitsToNat ds) else matchMarkerAt ms l
    else matchMarkerAt ms l

/-- Leftmost match of `(?:page=|p=|страница=)(\d+)` over a character list. -/
def scanMarkers (markers : List String) : List Char → Option Nat
  | [] => none
  | c :: cs =>
    match matchMarkerAt markers (c :: cs) with
    | some n => some n
    | none => scanMarkers markers cs

/-- The submatch of `(?i)(?:page=|p=|страница=)(\d+)` over an `href`. -/
def pageNumFromHref (href : String) : Option Nat :=
  scanMarkers pageMarkers (toLowerStr href).data

/-- Greedy `\d+`: at least one digit, maximal run, returning value and rest. -/
def parseDigits (l : List Char) : Option (Nat × List Char) :=
  let ds := l.takeWhile Char.isDigit
  if ds = [] then none else some (digitsToNat ds, l.drop ds.length)

/-- `\s+`: at least one whitespace character, maximal run. -/
def parseSpaces1 (l : List Char) : Option (List Char) :=
  let ss := l.takeWhile isSpaceGo
  if ss = [] then none else some (l.drop ss.length)

/-- `\s*`. -/
def skipSpaces (l : List Char) : List Char := l.dropWhile isSpaceGo

/-- A literal, e.g. `\.\.\.`. -/
def parseLit (lit l : List Char) : Option (List Char) :=
  if lit.isPrefixOf l then some (l.drop lit.length) else none

/-- The body of the pagination-text pattern
`\d+\s+\d+\s+\d+\s+\d+\s+\d+\s*\.\.\.\s*(\d+)` anchored at the current
position (the character classes of adjacent pieces are disjoint, so the greedy
sequential reading coincides with the regexp engine's). -/
def ellipsisAt (l : List Char) : Option Nat := do
  let (_, l) ← parseDigits l
  let l ← parseSpaces1 l
  let (_, l) ← parseDigits l
  let l ← parseSpaces1 l
  let (_, l) ← parseDigits l
  let l ← parseSpaces1 l
  let (_, l) ← parseDigits l
  let l ← parseSpaces1 l
  let (_, l) ← parseDigits l
  let l := skipSpaces l
  let l ← parseLit "...".data l
  let l := skipSpaces l
  let (n, _) ← parseDigits l
  pure n

/-- Leftmost match of the pagination-text pattern. -/
def ellipsisMatch : List Char → Option Nat
  | [] => none
  | c :: cs =>
    match ellipsisAt (c :: cs) with
    | some n => some n
    | none => ellipsisMatch cs

/-- `IntimcityGoldScraper.getTotalPages`: `none` models the `(0, err)` return
when `FetchAndParsePage` fails; otherwise scan every anchor for the maximum
page number (from `href` page parameters and from all-digit link texts), fall
back to the numeric-ellipsis body-text pattern, and default to 1. -/
def getTotalPages (fetched : Option GoldDoc) : Option Nat :=
  match fetched with
  | none => none
  | some doc =>
    let maxPage := doc.links.foldl
      (fun maxPage link =>
        match link.1 with
        | none => maxPage
        | some href =>
          let maxPage :=
            match pageNumFromHref href with
            | some n => if n > maxPage then n else maxPage
            | none => maxPage
          let t := goTrimSpace link.2
          if t.data ≠ [] ∧ t.data.all Char.isDigit then
            let n := digitsToNat t.data
            if n > maxPage then n else maxPage
          else maxPage)
      0
    let maxPage :=
      if maxPage = 0 then
        match ellipsisMatch doc.text.data with
        | some n => n
        | none => 0
      else maxPage
    some (if maxPage = 0 then 1 else maxPage)

/-! ## The ClickHouse flattening adapter (`internal/clickhouse/adapter.go`) -/

/-- The protobuf `ContactInfo` message. -/
structure ContactInfo where
  phone : String := ""
  telegram : String := ""
  email : String := ""
  whatsappAvailable : Bool := false
  viberAvailable : Bool := false
deriving Repr, DecidableEq

/-- The protobuf `PricingInfo` message; Go maps become association lists with
unique keys, values are `int32`. -/
structure PricingInfo where
  currency : String := ""
  durationPrices : List (String × Int) := []
  servicePrices : List (String × Int) := []
deriving Repr, DecidableEq

/-- The protobuf `ServiceInfo` message. -/
structure ServiceInfo where
  availableServices : List String := []
  additionalServices : List String := []
  restrictions : List String := []
  meetingType : String := ""
deriving Repr, DecidableEq

/-- The protobuf `LocationInfo` message. -/
structure LocationInfo where
  metroStations : List String := []
  district : String := ""
  city : String := ""
  outcallAvailable : Bool := false
  incallAvailable : Bool := false
deriving Repr, DecidableEq

/-- The protobuf `Listing` message (pointer fields become options). -/
structure Listing where
  id : String := ""
  personalInfo : Option PersonalInfo := none
  contactInfo : Option ContactInfo := none
  pricingInfo : Option PricingInfo := none
  serviceInfo : Option ServiceInfo := none
  locationInfo : Option LocationInfo := none
  description : String := ""
  lastUpdated : String := ""
  photos : List String := []
deriving Repr, DecidableEq

/-- Go's two-valued map read `price, exists := m[k]`. -/
def lookupPrice (m : List (String × Int)) (k : String) : Option Int :=
  (m.find? (fun kv => kv.1 == k)).map (fun kv => kv.2)

/-- The fields of `FlattenedListing` that the claims concern (audit timestamps
are outside the embedding). -/
structure FlattenedListing where
  id : String := ""
  sourceURL : String := ""
  personalName : String := ""
  personalAge : Nat := 0
  personalHeight : Nat := 0
  personalWeight : Nat := 0
  personalBreastSize : Nat := 0
  personalHairColor : String := ""
  personalEyeColor : String := ""
  personalBodyType : String := ""
  contactPhone : String := ""
  contactTelegram : String := ""
  contactEmail : String := ""
  pricingCurrency : String := ""
  priceApartmentsDayHour : Nat := 0
  priceApartmentsDay2Hour : Nat := 0
  priceApartmentsNightHour : Nat := 0
  priceApartmentsNight2Hour : Nat := 0
  priceOutcallDayHour : Nat := 0
  priceOutcallDay2Hour : Nat := 0
  priceOutcallNightHour : Nat := 0
  priceOutcallNight2Hour : Nat := 0
  priceHour : Nat := 0
  price2Hours : Nat := 0
  priceNight : Nat := 0
  priceDay : Nat := 0
  priceBase : Nat := 0
  pricingDurationPrices : List (String × Nat) := []
  pricingServicePrices : List (String × Nat) := []
  serviceAvailable : List String := []
  serviceAdditional : List String := []
  serviceRestrictions : List String := []
  serviceMeetingType : String := ""
  locationMetroStations : List String := []
  locationDistrict : String := ""
  locationCity : String := ""
  locationOutcallAvailable : Bool := false
  locationIncallAvailable : Bool := false
  description : String := ""
  lastUpdated : String := ""
  photos : List String := []
  photosCount : Nat := 0
deriving Repr, DecidableEq

/-- The structured-slot read `if price, exists := ...DurationPrices[k]; exists
{ field = uint32(price) }` (the field stays 0 otherwise). -/
def structuredSlot (dp : List (String × Int)) (k : String) : Nat :=
  match lookupPrice dp k with
  | some p => toUInt32 p
  | none => 0

/-- `Adapter.FlattenListing` (`internal/clickhouse/adapter.go`, lines
166-319): each `nil`-guarded block of the source becomes a per-field match on
the corresponding option; the legacy price fields are computed by the
priority chains of lines 240-287; the city defaults to "Unknown" when empty. -/
def FlattenListing (l : Listing) (sourceURL : String) : FlattenedListing :=
  let dp : List (String × Int) :=
    match l.pricingInfo with
    | some pi => pi.durationPrices
    | none => []
  let priceApartmentsDayHour := structuredSlot dp "apartments_day_hour"
  let priceApartmentsDay2Hour := structuredSlot dp "apartments_day_2hour"
  let priceApartmentsNightHour := structuredSlot dp "apartments_night_hour"
  let priceApartmentsNight2Hour := structuredSlot dp "apartments_night_2hour"
  let priceOutcallDayHour := structuredSlot dp "outcall_day_hour"
  let priceOutcallDay2Hour := structuredSlot dp "outcall_day_2hour"
  let priceOutcallNightHour := structuredSlot dp "outcall_night_hour"
  let priceOutcallNight2Hour := structuredSlot dp "outcall_night_2hour"
  let priceHour :=
    if priceApartmentsDayHour > 0 then priceApartmentsDayHour
    else if priceOutcallDayHour > 0 then priceOutcallDayHour
    else match lookupPrice dp "час" with
      | some p => toUInt32 p
      | none =>
        match lookupPrice dp "hour" with
        | some p => toUInt32 p
        | none => 0
  let price2Hours :=
    if priceApartmentsDay2Hour > 0 then priceApartmentsDay2Hour
    else if priceOutcallDay2Hour > 0 then priceOutcallDay2Hour
    else match lookupPrice dp "2 часа" with
      | some p => toUInt32 p
      | none =>
        match lookupPrice dp "2 hours" with
        | some p => toUInt32 p
        | none => 0
  let priceNight :=
    if priceApartmentsNightHour > 0 then priceApartmentsNightHour
    else if priceOutcallNightHour > 0 then priceOutcallNightHour
    else match lookupPrice dp "ночь" with
      | some p => toUInt32 p
      | none =>
        match lookupPrice dp "night" with
        | some p => toUInt32 p
        | none => 0
  let priceDay :=
    if priceApartmentsDay2Hour > 0 then priceApartmentsDay2Hour
    else if priceOutcallDay2Hour > 0 then priceOutcallDay2Hour
    else match lookupPrice dp "день" with
      | some p => toUInt32 p
      | none =>
        match lookupPrice dp "day" with
        | some p => toUInt32 p
        | none => 0
  let priceBase :=
    match lookupPrice dp "base" with
    | some p => toUInt32 p
    | none => priceHour
  let locationCity :=
    match l.locationInfo with
    | some li => li.city
    | none => ""
  { id := l.id
    sourceURL := sourceURL
    description := l.description
    lastUpdated := l.lastUpdated
    photos := l.photos
    photosCount := toUInt16 (l.photos.length : Int)
    personalName := (l.personalInfo.map (fun p => p.name)).getD ""
    personalAge := (l.personalInfo.map (fun p => toUInt8 p.age)).getD 0
    personalHeight := (l.personalInfo.map (fun p => toUInt16 p.height)).getD 0
    personalWeight := (l.personalInfo.map (fun p => toUInt16 p.weight)).getD 0
    personalBreastSize := (l.personalInfo.map (fun p => toUInt8 p.breastSize)).getD 0
    personalHairColor := (l.personalInfo.map (fun p => p.hairColor)).getD ""
    personalEyeColor := (l.personalInfo.map (fun p => p.eyeColor)).getD ""
    personalBodyType := (l.personalInfo.map (fun p => p.bodyType)).getD ""
    contactPhone := (l.contactInfo.map (fun c => c.phone)).getD ""
    contactTelegram := (l.contactInfo.map (fun c => c.telegram)).getD ""
    contactEmail := (l.contactInfo.map (fun c => c.email)).getD ""
    pricingCurrency :=
      match l.pricingInfo with
      | some pi => if pi.currency = "" then "RUB" else pi.currency
      | none => ""
    priceApartmentsDayHour := priceApartmentsDayHour
    priceApartmentsDay2Hour := priceApartmentsDay2Hour
    priceApartmentsNightHour := priceApartmentsNightHour
    priceApartmentsNight2Hour := priceApartmentsNight2Hour
    priceOutcallDayHour := priceOutcallDayHour
    priceOutcallDay2Hour := priceOutcallDay2Hour
    priceOutcallNightHour := priceOutcallNightHour
    priceOutcallNight2Hour := priceOutcallNight2Hour
    priceHour := priceHour
    price2Hours := price2Hours
    priceNight := priceNight
    priceDay := priceDay
    priceBase := priceBase
    pricingDurationPrices :=
      match l.pricingInfo with
      | some pi => pi.durationPrices.map (fun kv => (kv.1, toUInt32 kv.2))
      | none => []
    pricingServicePrices :=
      match l.pricingInfo with
      | some pi => pi.servicePrices.map (fun kv => (kv.1, toUInt32 kv.2))
      | none => []
    serviceAvailable := (l.serviceInfo.map (fun s => s.availableServices)).getD []
    serviceAdditional := (l.serviceInfo.map (fun s => s.additionalServices)).getD []
    serviceRestrictions := (l.serviceInfo.map (fun s => s.restrictions)).getD []
    serviceMeetingType := (l.serviceInfo.map (fun s => s.meetingType)).getD ""
    locationMetroStations := (l.locationInfo.map (fun li => li.metroStations)).getD []
    locationDistrict := (l.locationInfo.map (fun li => li.district)).getD ""
    locationCity := if locationCity = "" then "Unknown" else locationCity
    locationOutcallAvailable := (l.locationInfo.map (fun li => li.outcallAvailable)).getD false
    locationIncallAvailable := (l.locationInfo.map (fun li => li.incallAvailable)).getD false }

/-! ### The specification's priority chains, written from the spec's words

These are intentionally phrased directly over the raw duration-price map, so
that comparing them with `FlattenListing` is meaningful. -/

/-- Spec reading of "`X` if > 0": the canonical slot contributes only when
present with a positive (as `uint32`) value. -/
def specPositiveSlot (dp : List (String × Int)) (k : String) : Option Nat :=
  match lookupPrice dp k with
  | some v => if toUInt32 v > 0 then some (toUInt32 v) else none
  | none => none

/-- Spec reading of "else the legacy key `k`": the legacy slot contributes
whenever present. -/
def specLegacySlot (dp : List (String × Int)) (k : String) : Option Nat :=
  (lookupPrice dp k).map toUInt32

/-- The spec's four-step priority chain: primary canonical slot if positive,
else secondary canonical slot if positive, else first legacy key if present,
else second legacy key if present, else unset (0). -/
def specPriceChain (dp : List (String × Int)) (p1 p2 l1 l2 : String) : Nat :=
  match specPositiveSlot dp p1 with
  | some v => v
  | none =>
    match specPositiveSlot dp p2 with
    | some v => v
    | none =>
      match specLegacySlot dp l1 with
      | some v => v
      | none =>
        match specLegacySlot dp l2 with
        | some v => v
        | none => 0

/-- The spec's `price_base`: the explicit `base` key if present, else the
computed `price_hour`. -/
def specPriceBase (dp : List (String × Int)) : Nat :=
  match specLegacySlot dp "base" with
  | some v => v
  | none => specPriceChain dp "apartments_day_hour" "outcall_day_hour" "час" "hour"

/-! ## Supporting lemmas: the proxy client -/

/-- `Do` leaves the pool untouched and advances the cursor by exactly one
(modulo the pool size) when the pool is non-empty. -/
theorem Do_client_eq (pc : ProxyClient) (tr : Transport) (parseOK : String → Bool)
    (method url : String) (body : Option String) (headers : List (String × String)) :
    (Do pc tr parseOK method url body headers).client =
      if 0 < pc.proxies.length then
        { pc with currentIdx := (pc.currentIdx + 1) % pc.proxies.length }
      else pc := by
  by_cases h : 0 < pc.proxies.length
  · have hne : ¬ pc.proxies.length = 0 := by omega
    simp only [Do, getNextProxyIndex, h, if_true, hne, if_false]
    repeat' split
    all_goals rfl
  · simp only [Do, h, if_false]
    repeat' split
    all_goals rfl

/-- After `k` further calls from any in-range state, the cursor has advanced by
`k` modulo the pool size and the pool is unchanged. -/
theorem doCalls_spec (tr : Transport) (parseOK : String → Bool) (method url : String)
    (body : Option String) (headers : List (String × String)) (k : Nat) :
    ∀ pc : ProxyClient, 0 < pc.proxies.length → pc.currentIdx < pc.proxies.length →
      (doCalls tr parseOK method url body headers k pc).proxies = pc.proxies ∧
      (doCalls tr parseOK method url body headers k pc).currentIdx
        = (pc.currentIdx + k) % pc.proxies.length := by
  induction k with
  | zero =>
    intro pc hN hc
    refine ⟨rfl, ?_⟩
    show pc.currentIdx = (pc.currentIdx + 0) % pc.proxies.length
    rw [Nat.add_zero, Nat.mod_eq_of_lt hc]
  | succ k ih =>
    intro pc hN hc
    have hcl := Do_client_eq pc tr parseOK method url body headers
    rw [if_pos hN] at hcl
    have hstep := ih (Do pc tr parseOK method url body headers).client
    rw [hcl] at hstep
    have h1 := hstep hN (Nat.mod_lt _ hN)
    refine ⟨?_, ?_⟩
    · show (doCalls tr parseOK method url body headers k
        (Do pc tr parseOK method url body headers).client).proxies = pc.proxies
      rw [hcl]; exact h1.1
    · show (doCalls tr parseOK method url body headers k
        (Do pc tr parseOK method url body headers).client).currentIdx
        = (pc.currentIdx + (k + 1)) % pc.proxies.length
      rw [hcl, h1.2, Nat.mod_add_mod]
      congr 1
      omega

/-- The attempt order has one entry per configured proxy. -/
theorem attemptIndices_length (n s : Nat) : (attemptIndices n s).length = n := by
  simp [attemptIndices]

/-- Every entry of the attempt order is a valid index. -/
theorem attemptIndices_mem_lt (n s : Nat) (hn : 0 < n) :
    ∀ x ∈ attemptIndices n s, x < n := by
  intro x hx
  simp only [attemptIndices, List.mem_map, List.mem_range] at hx
  obtain ⟨i, _, rfl⟩ := hx
  exact Nat.mod_lt _ hn

/-- The attempt order never repeats an index. -/
theorem attemptIndices_nodup (n s : Nat) : (attemptIndices n s).Nodup := by
  rcases Nat.eq_zero_or_pos n with rfl | hn
  · simp [attemptIndices]
  · apply (List.nodup_range n).map_on
    intro i hi j hj hij
    simp only [List.mem_range] at hi hj
    have h1 : (s + i) % n = (s + j) % n := hij
    have h2 : i % n = j % n := Nat.ModEq.add_left_cancel' s h1
    rwa [Nat.mod_eq_of_lt hi, Nat.mod_eq_of_lt hj] at h2

/-- The attempt order visits every valid index. -/
theorem attemptIndices_mem (n s : Nat) (hn : 0 < n) :
    ∀ j < n, j ∈ attemptIndices n s := by
  intro j hj
  have hnd := attemptIndices_nodup n s
  have hcard : (attemptIndices n s).toFinset.card = n := by
    rw [List.toFinset_card_of_nodup hnd, attemptIndices_length]
  have hsub : (attemptIndices n s).toFinset ⊆ Finset.range n := by
    intro x hx
    rw [List.mem_toFinset] at hx
    exact Finset.mem_range.mpr (attemptIndices_mem_lt n s hn x hx)
  have heq : (attemptIndices n s).toFinset = Finset.range n :=
    Finset.eq_of_subset_of_card_le hsub (by rw [hcard, Finset.card_range])
  have : j ∈ (attemptIndices n s).toFinset := by
    rw [heq]; exact Finset.mem_range.mpr hj
  rwa [List.mem_toFinset] at this

/-- Each valid index appears in the attempt order exactly once. -/
theorem attemptIndices_count (n s : Nat) (hn : 0 < n) :
    ∀ j < n, (attemptIndices n s).count j = 1 := by
  intro j hj
  exact List.count_eq_one_of_mem (attemptIndices_nodup n s) (attemptIndices_mem n s hn j hj)

/-- Every request the retry loop hands to the transport is the freshly built
request with the full buffered body, and at most `maxRetries - attempt`
requests are issued. -/
theorem doAttempts_requests (tr : Transport) (proxyURL method url : String)
    (bodyBytes : Option String) (headers : List (String × String)) (maxRetries : Nat) :
    ∀ fuel attempt, maxRetries - attempt ≤ fuel →
      (∀ r ∈ (doAttempts tr proxyURL method url bodyBytes headers maxRetries attempt).2,
        r = mkRequest method url bodyBytes headers) ∧
      (doAttempts tr proxyURL method url bodyBytes headers maxRetries attempt).2.length
        ≤ maxRetries - attempt := by
  intro fuel
  induction fuel with
  | zero =>
    intro attempt h
    have hge : ¬ attempt < maxRetries := by omega
    rw [doAttempts, dif_neg hge]
    exact ⟨by intro r hr; simp at hr, by simp⟩
  | succ fuel ih =>
    intro attempt h
    by_cases hlt : attempt < maxRetries
    · rw [doAttempts, dif_pos hlt]
      cases htr : tr proxyURL attempt (mkRequest method url bodyBytes headers) with
      | ok resp =>
        simp only [htr]
        constructor
        · intro r hr; simp at hr; exact hr
        · simp; omega
      | error cause =>
        simp only [htr]
        by_cases hlast : attempt = maxRetries - 1
        · rw [if_pos hlast]
          constructor
          · intro r hr; simp at hr; exact hr
          · simp; omega
        · rw [if_neg hlast]
          have hrec := ih (attempt + 1) (by omega)
          constructor
          · intro r hr
            simp only [List.mem_cons] at hr
            rcases hr with rfl | hr
            · rfl
            · exact hrec.1 r hr
          · simp only [List.length_cons]
            omega
    · rw [doAttempts, dif_neg hlt]
      exact ⟨by intro r hr; simp at hr, by simp⟩

/-- On a transport where every attempt fails, the retry loop issues exactly
`maxRetries - attempt` requests, returns no response, and (when entered below
the bound) reports the `request failed ... after maxRetries attempts` error. -/
theorem doAttempts_allFail (tr : Transport) (proxyURL method url : String)
    (bodyBytes : Option String) (headers : List (String × String)) (maxRetries : Nat)
    (hfail : AlwaysFails tr) :
    ∀ fuel attempt, maxRetries - attempt ≤ fuel →
      (doAttempts tr proxyURL method url bodyBytes headers maxRetries attempt).1.1 = none ∧
      (doAttempts tr proxyURL method url bodyBytes headers maxRetries attempt).2.length
        = maxRetries - attempt ∧
      (attempt < maxRetries →
        ∃ cause, (doAttempts tr proxyURL method url bodyBytes headers maxRetries attempt).1.2
          = some (.requestFailed (proxyInfoOf proxyURL) maxRetries cause)) ∧
      (doAttempts tr proxyURL method url bodyBytes headers maxRetries attempt).1.2 ≠ none := by
  intro fuel
  induction fuel with
  | zero =>
    intro attempt h
    have hge : ¬ attempt < maxRetries := by omega
    rw [doAttempts, dif_neg hge]
    refine ⟨rfl, by simp; omega, by intro hcon; omega, by simp⟩
  | succ fuel ih =>
    intro attempt h
    by_cases hlt : attempt < maxRetries
    · rw [doAttempts, dif_pos hlt]
      obtain ⟨cause, hcause⟩ := hfail proxyURL attempt (mkRequest method url bodyBytes headers)
      simp only [hcause]
      by_cases hlast : attempt = maxRetries - 1
      · rw [if_pos hlast]
        refine ⟨rfl, by simp; omega, ?_, by simp⟩
        intro _
        exact ⟨cause, rfl⟩
      · rw [if_neg hlast]
        have hrec := ih (attempt + 1) (by omega)
        refine ⟨hrec.1, ?_, ?_, hrec.2.2.2⟩
        · simp only [List.length_cons, hrec.2.1]
          omega
        · intro _
          exact hrec.2.2.1 (by omega)
    · rw [doAttempts, dif_neg hlt]
      refine ⟨rfl, by simp; omega, by intro hcon; omega, by simp⟩

/-- The retry loop returns exactly one of a response or an error. -/
theorem doAttempts_exclusive (tr : Transport) (proxyURL method url : String)
    (bodyBytes : Option String) (headers : List (String × String)) (maxRetries : Nat) :
    ∀ fuel attempt, maxRetries - attempt ≤ fuel →
      ((doAttempts tr proxyURL method url bodyBytes headers maxRetries attempt).1.1.isSome ∧
        (doAttempts tr proxyURL method url bodyBytes headers maxRetries attempt).1.2 = none) ∨
      ((doAttempts tr proxyURL method url bodyBytes headers maxRetries attempt).1.1 = none ∧
        (doAttempts tr proxyURL method url bodyBytes headers maxRetries attempt).1.2.isSome) := by
  intro fuel
  induction fuel with
  | zero =>
    intro attempt h
    have hge : ¬ attempt < maxRetries := by omega
    rw [doAttempts, dif_neg hge]
    simp
  | succ fuel ih =>
    intro attempt h
    by_cases hlt : attempt < maxRetries
    · rw [doAttempts, dif_pos hlt]
      cases htr : tr proxyURL attempt (mkRequest method url bodyBytes headers) with
      | ok resp => simp [htr]
      | error cause =>
        simp only [htr]
        by_cases hlast : attempt = maxRetries - 1
        · rw [if_pos hlast]
          simp
        · rw [if_neg hlast]
          exact ih (attempt + 1) (by omega)
    · rw [doAttempts, dif_neg hlt]
      simp

/-- `doRequestWithProxy` returns exactly one of a response or an error. -/
theorem doRequestWithProxy_exclusive (pc : ProxyClient) (tr : Transport)
    (parseOK : String → Bool) (method url : String) (body : Option String)
    (headers : List (String × String)) (proxyURL : String) :
    ((doRequestWithProxy pc tr parseOK method url body headers proxyURL).1.1.isSome ∧
      (doRequestWithProxy pc tr parseOK method url body headers proxyURL).1.2 = none) ∨
    ((doRequestWithProxy pc tr parseOK method url body headers proxyURL).1.1 = none ∧
      (doRequestWithProxy pc tr parseOK method url body headers proxyURL).1.2.isSome) := by
  unfold doRequestWithProxy
  split
  · right; exact ⟨rfl, rfl⟩
  · exact doAttempts_exclusive tr proxyURL method url body headers pc.maxRetries
      (pc.maxRetries - 0) 0 (by omega)

/-- On an always-failing transport, `doRequestWithProxy` always reports an
error. -/
theorem doRequestWithProxy_fails (pc : ProxyClient) (tr : Transport)
    (parseOK : String → Bool) (method url : String) (body : Option String)
    (headers : List (String × String)) (proxyURL : String) (hfail : AlwaysFails tr) :
    (doRequestWithProxy pc tr parseOK method url body headers proxyURL).1.2 ≠ none := by
  unfold doRequestWithProxy
  split
  · simp
  · exact (doAttempts_allFail tr proxyURL method url body headers pc.maxRetries hfail
      (pc.maxRetries - 0) 0 (by omega)).2.2.2

/-- On a list of indices where every attempt fails, the proxy loop tries every
index in order and never returns early. -/
theorem tryProxies_allFail (f : Nat → (Option Response × Option ReqError) × List Request)
    (hf : ∀ i, (f i).1.2 ≠ none) :
    ∀ l : List Nat,
      (tryProxies f l).1 = none ∧ (tryProxies f l).2.2.map Prod.fst = l := by
  intro l
  induction l with
  | nil => exact ⟨rfl, rfl⟩
  | cons i rest ih =>
    simp only [tryProxies]
    cases h : (f i).1.2 with
    | none => exact absurd h (hf i)
    | some e =>
      simp only [h]
      exact ⟨ih.1, by simp [ih.2]⟩

/-- When the proxy loop returns early, its payload comes from an attempt whose
error was `nil`. -/
theorem tryProxies_ret_isSome (f : Nat → (Option Response × Option ReqError) × List Request)
    (hwf : ∀ i, (f i).1.2 = none → (f i).1.1.isSome) :
    ∀ (l : List Nat) (r1 : Option Response), (tryProxies f l).1 = some r1 → r1.isSome := by
  intro l
  induction l with
  | nil => intro r1 h; simp [tryProxies] at h
  | cons i rest ih =>
    intro r1 h
    simp only [tryProxies] at h
    cases he : (f i).1.2 with
    | none =>
      simp only [he] at h
      obtain rfl : (f i).1.1 = r1 := by
        simpa using h
      exact hwf i he
    | some e =>
      simp only [he] at h
      exact ih r1 h

/-- When the proxy loop exhausts a non-empty list without an early return, its
`lastErr` is set. -/
theorem tryProxies_lastErr (f : Nat → (Option Response × Option ReqError) × List Request) :
    ∀ (l : List Nat), l ≠ [] → (tryProxies f l).1 = none →
      (tryProxies f l).2.1.isSome := by
  intro l
  cases l with
  | nil => intro h; exact absurd rfl h
  | cons i rest =>
    intro _ hret
    simp only [tryProxies] at hret ⊢
    cases he : (f i).1.2 with
    | none => simp [he] at hret
    | some e => simp [he]

/-- With a non-empty pool, `Do`'s recorded proxy attempts are exactly those of
the proxy loop run over the wrapped index sequence starting at the cursor. -/
theorem Do_proxyAttempts (pc : ProxyClient) (tr : Transport) (parseOK : String → Bool)
    (method url : String) (body : Option String) (headers : List (String × String))
    (hN : 0 < pc.proxies.length) :
    (Do pc tr parseOK method url body headers).proxyAttempts =
      (tryProxies
        (fun idx => doRequestWithProxy pc tr parseOK method url body headers
          (pc.proxies.getD idx ""))
        (attemptIndices pc.proxies.length pc.currentIdx)).2.2 := by
  have hne : ¬ pc.proxies.length = 0 := by omega
  simp only [Do, getNextProxyIndex, hN, if_true, hne, if_false]
  repeat' split
  all_goals rfl

/-- The complete behaviour of `Do` on an empty pool: no proxy attempt is ever
made; without fallback the call returns the `no working proxy` error and makes
no network attempt at all; with fallback it makes exactly one direct attempt
and returns its outcome (the error wrapped as `all proxy attempts failed`). -/
theorem Do_empty (pc : ProxyClient) (tr : Transport) (parseOK : String → Bool)
    (method url : String) (body : Option String) (headers : List (String × String))
    (hE : pc.proxies = []) :
    (Do pc tr parseOK method url body headers).proxyAttempts = [] ∧
    (Do pc tr parseOK method url body headers).client = pc ∧
    (pc.fallbackOK = false →
      Do pc tr parseOK method url body headers =
        { resp := none, err := some .noWorkingProxyFallbackDisabled, client := pc,
          proxyAttempts := [], fallbackAttempt := none }) ∧
    (pc.fallbackOK = true →
      (Do pc tr parseOK method url body headers).fallbackAttempt
          = some (doRequestWithProxy pc tr parseOK method url body headers "").2 ∧
      ((doRequestWithProxy pc tr parseOK method url body headers "").1.2 = none →
        (Do pc tr parseOK method url body headers).resp
            = (doRequestWithProxy pc tr parseOK method url body headers "").1.1 ∧
        (Do pc tr parseOK method url body headers).err = none) ∧
      (∀ e, (doRequestWithProxy pc tr parseOK method url body headers "").1.2 = some e →
        (Do pc tr parseOK method url body headers).resp = none ∧
        (Do pc tr parseOK method url body headers).err
            = some (.allProxyAttemptsFailed e))) := by
  have h0 : ¬ 0 < pc.proxies.length := by rw [hE]; simp
  refine ⟨?_, ?_, ?_, ?_⟩
  · simp only [Do, h0, if_false]
    repeat' split
    all_goals rfl
  · simp only [Do, h0, if_false]
    repeat' split
    all_goals rfl
  · intro hfb
    simp [Do, h0, hfb]
  · intro hfb
    refine ⟨?_, ?_, ?_⟩
    · simp only [Do, h0, if_false, hfb, if_true]
      repeat' split
      all_goals rfl
    · intro hnone
      constructor <;> simp [Do, h0, hfb, hnone]
    · intro e he
      constructor <;> simp [Do, h0, hfb, he]

/-! ## Claim C10 -/

/-- C10: For every method, URL, body and headers, `ProxyClient.Do` returns
exactly one of a non-nil response with nil error or a nil response with
non-nil error, never `(nil, nil)`; in particular, when the pool is empty and
fallback is disallowed it returns the `no working proxy found and fallback
disabled` error without performing any network attempt. -/
theorem c10_response_xor_error (pc : ProxyClient) (tr : Transport) (parseOK : String → Bool)
    (method url : String) (body : Option String) (headers : List (String × String)) :
    (((Do pc tr parseOK method url body headers).resp.isSome ∧
      (Do pc tr parseOK method url body headers).err = none) ∨
     ((Do pc tr parseOK method url body headers).resp = none ∧
      (Do pc tr parseOK method url body headers).err.isSome)) ∧
    (pc.proxies = [] → pc.fallbackOK = false →
      (Do pc tr parseOK method url body headers).err = some .noWorkingProxyFallbackDisabled ∧
      (Do pc tr parseOK method url body headers).resp = none ∧
      (Do pc tr parseOK method url body headers).proxyAttempts = [] ∧
      (Do pc tr parseOK method url body headers).fallbackAttempt = none) := by
  constructor
  · by_cases hN : 0 < pc.proxies.length
    · have hne : ¬ pc.proxies.length = 0 := by omega
      have hwf : ∀ i : Nat,
          (doRequestWithProxy pc tr parseOK method url body headers
            (pc.proxies.getD i "")).1.2 = none →
          (doRequestWithProxy pc tr parseOK method url body headers
            (pc.proxies.getD i "")).1.1.isSome := by
        intro i hnone
        rcases doRequestWithProxy_exclusive pc tr parseOK method url body headers
            (pc.proxies.getD i "") with ⟨h1, _⟩ | ⟨_, h2⟩
        · exact h1
        · rw [hnone] at h2; simp at h2
      simp only [Do, getNextProxyIndex, hN, if_true, hne, if_false]
      split
      · rename_i r1 heq
        left
        exact ⟨tryProxies_ret_isSome _ hwf _ r1 heq, rfl⟩
      · split
        · split
          · rename_i hfbnone
            left
            refine ⟨?_, rfl⟩
            rcases doRequestWithProxy_exclusive pc tr parseOK method url body headers ""
                with ⟨h1, _⟩ | ⟨_, h2⟩
            · exact h1
            · rw [hfbnone] at h2; simp at h2
          · right; exact ⟨rfl, rfl⟩
        · split
          · right; exact ⟨rfl, rfl⟩
          · right; exact ⟨rfl, rfl⟩
    · have hE : pc.proxies = [] := List.length_eq_zero.mp (by omega)
      cases hfb : pc.fallbackOK with
      | false =>
        rw [(Do_empty pc tr parseOK method url body headers hE).2.2.1 hfb]
        right; exact ⟨rfl, rfl⟩
      | true =>
        have h4 := (Do_empty pc tr parseOK method url body headers hE).2.2.2 hfb
        rcases doRequestWithProxy_exclusive pc tr parseOK method url body headers ""
            with ⟨h1, h2⟩ | ⟨h1, h2⟩
        · have hres := h4.2.1 h2
          left
          exact ⟨by rw [hres.1]; exact h1, hres.2⟩
        · obtain ⟨e, he⟩ := Option.isSome_iff_exists.mp h2
          have hres := h4.2.2 e he
          right
          exact ⟨hres.1, by rw [hres.2]; rfl⟩
  · intro hE hfb
    rw [(Do_empty pc tr parseOK method url body headers hE).2.2.1 hfb]
    exact ⟨rfl, rfl, rfl, rfl⟩

/-- A transport that always succeeds (used by concrete witnesses). -/
def okTransport : Transport := fun _ _ _ => .ok ⟨200⟩

/-- A transport that always fails with a connection error (used by concrete
witnesses). -/
def failTransport : Transport := fun _ _ _ => .error "connection refused"

/-- The trivial `url.Parse` oracle accepting every proxy URL. -/
def parseAll : String → Bool := fun _ => true

/-- Witness for C10: the empty-pool default client returns the
fallback-disabled error and makes no attempt, even on a perfect network. -/
theorem c10_response_xor_error_witness :
    (Do (NewProxyClient [] 30) okTransport parseAll "GET" "http://example.com" none []).err
        = some .noWorkingProxyFallbackDisabled ∧
    (Do (NewProxyClient [] 30) okTransport parseAll "GET" "http://example.com" none []).resp
        = none ∧
    (Do (NewProxyClient [] 30) okTransport parseAll "GET" "http://example.com" none []).proxyAttempts
        = [] ∧
    (Do (NewProxyClient [] 30) okTransport parseAll "GET" "http://example.com" none []).fallbackAttempt
        = none :=
  (c10_response_xor_error (NewProxyClient [] 30) okTransport parseAll
    "GET" "http://example.com" none []).2 rfl rfl

/-! ## Claim C1 -/

/-- C1: For every proxy pool of size `N ≥ 1`, each top-level `Do` call advances
the shared rotation cursor exactly once (after `K` total calls the cursor
equals `K mod N`), and within one call on an always-failing transport the
client attempts every configured proxy exactly once, starting at the selected
index and wrapping around — no proxy attempted twice, none skipped. -/
theorem c1_round_robin_rotation
    (proxies : List String) (timeout : Nat) (tr : Transport) (parseOK : String → Bool)
    (method url : String) (body : Option String) (headers : List (String × String))
    (K : Nat) (hN : 0 < proxies.length) (hfail : AlwaysFails tr) :
    (doCalls tr parseOK method url body headers K (NewProxyClient proxies timeout)).currentIdx
        = K % proxies.length ∧
    (Do (doCalls tr parseOK method url body headers K (NewProxyClient proxies timeout))
        tr parseOK method url body headers).client.currentIdx
        = (K + 1) % proxies.length ∧
    (Do (doCalls tr parseOK method url body headers K (NewProxyClient proxies timeout))
        tr parseOK method url body headers).proxyAttempts.map Prod.fst
        = attemptIndices proxies.length (K % proxies.length) ∧
    (Do (doCalls tr parseOK method url body headers K (NewProxyClient proxies timeout))
        tr parseOK method url body headers).proxyAttempts.length
        = proxies.length ∧
    (∀ j < proxies.length,
      ((Do (doCalls tr parseOK method url body headers K (NewProxyClient proxies timeout))
        tr parseOK method url body headers).proxyAttempts.map Prod.fst).count j = 1) := by
  have hN0 : 0 < (NewProxyClient proxies timeout).proxies.length := hN
  have hc0 : (NewProxyClient proxies timeout).currentIdx
      < (NewProxyClient proxies timeout).proxies.length := hN
  have hpc := doCalls_spec tr parseOK method url body headers K
      (NewProxyClient proxies timeout) hN0 hc0
  generalize hgen : doCalls tr parseOK method url body headers K
      (NewProxyClient proxies timeout) = pcK at hpc ⊢
  simp only [NewProxyClient, Nat.zero_add] at hpc
  have hproxies : pcK.proxies = proxies := hpc.1
  have hidx : pcK.currentIdx = K % proxies.length := hpc.2
  have hNK : 0 < pcK.proxies.length := by rw [hproxies]; exact hN
  have h1 : pcK.currentIdx = K % proxies.length := hidx
  have h2 : (Do pcK tr parseOK method url body headers).client.currentIdx
      = (K + 1) % proxies.length := by
    rw [Do_client_eq pcK tr parseOK method url body headers, if_pos hNK]
    show (pcK.currentIdx + 1) % pcK.proxies.length = (K + 1) % proxies.length
    rw [hproxies, hidx, Nat.mod_add_mod]
  have hf : ∀ i : Nat,
      ((fun idx => doRequestWithProxy pcK tr parseOK method url body headers
        (pcK.proxies.getD idx "")) i).1.2 ≠ none :=
    fun i => doRequestWithProxy_fails pcK tr parseOK method url body headers _ hfail
  have h3 : (Do pcK tr parseOK method url body headers).proxyAttempts.map Prod.fst
      = attemptIndices proxies.length (K % proxies.length) := by
    rw [Do_proxyAttempts pcK tr parseOK method url body headers hNK]
    rw [(tryProxies_allFail _ hf (attemptIndices pcK.proxies.length pcK.currentIdx)).2]
    rw [hproxies, hidx]
  have h4 : (Do pcK tr parseOK method url body headers).proxyAttempts.length
      = proxies.length := by
    have hlen := congrArg List.length h3
    rw [List.length_map, attemptIndices_length] at hlen
    exact hlen
  refine ⟨h1, h2, h3, h4, ?_⟩
  intro j hj
  rw [h3]
  exact attemptIndices_count proxies.length (K % proxies.length) hN j hj

/-- Witness for C1 at a pool of two proxies, an always-failing transport and
three prior calls. -/
theorem c1_round_robin_rotation_witness :
    (doCalls failTransport parseAll "GET" "http://example.com" none [] 3
        (NewProxyClient ["http://proxy1:8080", "http://proxy2:3128"] 10)).currentIdx = 1 ∧
    (Do (doCalls failTransport parseAll "GET" "http://example.com" none [] 3
          (NewProxyClient ["http://proxy1:8080", "http://proxy2:3128"] 10))
        failTransport parseAll "GET" "http://example.com" none []).proxyAttempts.map Prod.fst
      = [1, 0] ∧
    (Do (doCalls failTransport parseAll "GET" "http://example.com" none [] 3
          (NewProxyClient ["http://proxy1:8080", "http://proxy2:3128"] 10))
        failTransport parseAll "GET" "http://example.com" none []).proxyAttempts.length = 2 := by
  have h := c1_round_robin_rotation ["http://proxy1:8080", "http://proxy2:3128"] 10
      failTransport parseAll "GET" "http://example.com" none [] 3
      (by decide) (fun p n r => ⟨"connection refused", rfl⟩)
  refine ⟨?_, ?_, ?_⟩
  · rw [h.1]; decide
  · rw [h.2.2.1]; decide
  · rw [h.2.2.2.1]; decide

/-! ## Claim C9 -/

/-- C9: within one logical request each proxy attempt is retried up to
`maxRetries` times (default 3: `NewProxyClient` sets 3); on a transport where
every attempt fails, exactly `maxRetries` requests are issued, each one a
fresh request re-materialized from the buffered body bytes; and the final
error is wrapped with the proxy and the attempt count. -/
theorem c9_per_proxy_retries (pc : ProxyClient) (tr : Transport) (parseOK : String → Bool)
    (method url : String) (body : Option String) (headers : List (String × String))
    (proxyURL : String) (hparse : proxyURL = "" ∨ parseOK proxyURL = true)
    (hM : 0 < pc.maxRetries) (hfail : AlwaysFails tr) :
    (∀ (proxies : List String) (timeout : Nat),
      (NewProxyClient proxies timeout).maxRetries = 3) ∧
    (∀ r ∈ (doRequestWithProxy pc tr parseOK method url body headers proxyURL).2,
      r = mkRequest method url body headers) ∧
    (∀ r ∈ (doRequestWithProxy pc tr parseOK method url body headers proxyURL).2,
      r.body = body ∧ r.method = method ∧ r.url = url) ∧
    (doRequestWithProxy pc tr parseOK method url body headers proxyURL).2.length
      = pc.maxRetries ∧
    (∃ cause, (doRequestWithProxy pc tr parseOK method url body headers proxyURL).1.2
      = some (.requestFailed (proxyInfoOf proxyURL) pc.maxRetries cause)) := by
  have hcond : ¬ (proxyURL ≠ "" ∧ parseOK proxyURL = false) := by
    rcases hparse with h | h
    · intro hc; exact hc.1 h
    · intro hc; rw [h] at hc; exact absurd hc.2 (by simp)
  have hA := doAttempts_allFail tr proxyURL method url body headers pc.maxRetries hfail
      pc.maxRetries 0 (by omega)
  have hR := doAttempts_requests tr proxyURL method url body headers pc.maxRetries
      pc.maxRetries 0 (by omega)
  have hunf : doRequestWithProxy pc tr parseOK method url body headers proxyURL
      = doAttempts tr proxyURL method url body headers pc.maxRetries 0 := by
    unfold doRequestWithProxy
    rw [if_neg hcond]
  rw [hunf]
  refine ⟨fun _ _ => rfl, hR.1, ?_, ?_, hA.2.2.1 hM⟩
  · intro r hr
    rw [hR.1 r hr]
    exact ⟨rfl, rfl, rfl⟩
  · rw [hA.2.1]; omega

/-- Witness for C9 at a one-proxy client, an always-failing transport and a
buffered POST body. -/
theorem c9_per_proxy_retries_witness :
    (doRequestWithProxy (NewProxyClient ["http://proxy1:8080"] 10) failTransport parseAll
        "POST" "http://example.com" (some "payload") [] "http://proxy1:8080").2.length = 3 ∧
    (∀ r ∈ (doRequestWithProxy (NewProxyClient ["http://proxy1:8080"] 10) failTransport parseAll
        "POST" "http://example.com" (some "payload") [] "http://proxy1:8080").2,
      r.body = some "payload") ∧
    (∃ cause,
      (doRequestWithProxy (NewProxyClient ["http://proxy1:8080"] 10) failTransport parseAll
        "POST" "http://example.com" (some "payload") [] "http://proxy1:8080").1.2
      = some (.requestFailed "proxy http://proxy1:8080" 3 cause)) := by
  have h := c9_per_proxy_retries (NewProxyClient ["http://proxy1:8080"] 10) failTransport
      parseAll "POST" "http://example.com" (some "payload") [] "http://proxy1:8080"
      (Or.inr rfl) (by decide) (fun p n r => ⟨"connection refused", rfl⟩)
  refine ⟨h.2.2.2.1, fun r hr => (h.2.2.1 r hr).1, h.2.2.2.2⟩

/-! ## Claim C5 -/

/-- C5 counterexample: with the constructor-default client (`NewProxyClient`
sets `fallbackOK := false`) and an empty pool, `Do` performs no network
attempt at all — no proxy attempt and no direct attempt — and returns the
fallback-disabled error, even on a transport that would have succeeded.  This
refutes "behaves as a direct HTTP client: performs exactly one no-proxy
attempt and returns that attempt's response or error". -/
theorem c5_empty_pool_counterexample :
    (Do (NewProxyClient [] 30) okTransport parseAll "GET" "http://example.com" none []).fallbackAttempt
        = none ∧
    (Do (NewProxyClient [] 30) okTransport parseAll "GET" "http://example.com" none []).proxyAttempts
        = [] ∧
    (Do (NewProxyClient [] 30) okTransport parseAll "GET" "http://example.com" none []).resp
        = none ∧
    (Do (NewProxyClient [] 30) okTransport parseAll "GET" "http://example.com" none []).err
        = some .noWorkingProxyFallbackDisabled ∧
    (NewProxyClient ([] : List String) 30).fallbackOK = false := by
  exact ⟨rfl, rfl, rfl, rfl, rfl⟩

/-- C5 (amended): if the proxy pool is empty, `Do` makes no proxy attempts;
when fallback is disallowed (the constructor default) it makes no direct
attempt either and returns the fallback-disabled error; when fallback is
allowed it performs exactly one direct (no-proxy) attempt — itself retried up
to `maxRetries` internally — and returns that attempt's response on success,
or its error wrapped as the all-attempts-failed error. -/
theorem c5_empty_pool_amended (pc : ProxyClient) (tr : Transport) (parseOK : String → Bool)
    (method url : String) (body : Option String) (headers : List (String × String))
    (hE : pc.proxies = []) :
    (Do pc tr parseOK method url body headers).proxyAttempts = [] ∧
    (pc.fallbackOK = false →
      (Do pc tr parseOK method url body headers).fallbackAttempt = none ∧
      (Do pc tr parseOK method url body headers).resp = none ∧
      (Do pc tr parseOK method url body headers).err
          = some .noWorkingProxyFallbackDisabled) ∧
    (pc.fallbackOK = true →
      (Do pc tr parseOK method url body headers).fallbackAttempt
          = some (doRequestWithProxy pc tr parseOK method url body headers "").2 ∧
      ((doRequestWithProxy pc tr parseOK method url body headers "").1.2 = none →
        (Do pc tr parseOK method url body headers).resp
            = (doRequestWithProxy pc tr parseOK method url body headers "").1.1 ∧
        (Do pc tr parseOK method url body headers).err = none) ∧
      (∀ e, (doRequestWithProxy pc tr parseOK method url body headers "").1.2 = some e →
        (Do pc tr parseOK method url body headers).resp = none ∧
        (Do pc tr parseOK method url body headers).err
            = some (.allProxyAttemptsFailed e))) := by
  have h := Do_empty pc tr parseOK method url body headers hE
  refine ⟨h.1, ?_, h.2.2.2⟩
  intro hfb
  rw [h.2.2.1 hfb]
  exact ⟨rfl, rfl, rfl⟩

/-- Witness for C5 (amended) at an empty pool with fallback enabled: exactly
one direct attempt whose response is returned. -/
theorem c5_empty_pool_amended_witness :
    (Do { proxies := [], currentIdx := 0, timeout := 30, maxRetries := 3, fallbackOK := true }
        okTransport parseAll "GET" "http://example.com" none []).fallbackAttempt
      = some (doRequestWithProxy
          { proxies := [], currentIdx := 0, timeout := 30, maxRetries := 3, fallbackOK := true }
          okTransport parseAll "GET" "http://example.com" none [] "").2 ∧
    (Do { proxies := [], currentIdx := 0, timeout := 30, maxRetries := 3, fallbackOK := true }
        okTransport parseAll "GET" "http://example.com" none []).resp = some ⟨200⟩ ∧
    (Do { proxies := [], currentIdx := 0, timeout := 30, maxRetries := 3, fallbackOK := true }
        okTransport parseAll "GET" "http://example.com" none []).err = none := by
  have h := c5_empty_pool_amended
      { proxies := [], currentIdx := 0, timeout := 30, maxRetries := 3, fallbackOK := true }
      okTransport parseAll "GET" "http://example.com" none [] rfl
  have hdr : (doRequestWithProxy
      { proxies := [], currentIdx := 0, timeout := 30, maxRetries := 3, fallbackOK := true }
      okTransport parseAll "GET" "http://example.com" none [] "").1
      = (some ⟨200⟩, none) := by
    simp [doRequestWithProxy, doAttempts, okTransport]
  have h3 := h.2.2 rfl
  have hresp := h3.2.1 (by rw [hdr])
  refine ⟨h3.1, ?_, hresp.2⟩
  rw [hresp.1, hdr]

/-! ## Claim C2 -/

/-- Whatever the regexp engine returns, a value accepted by a strategy loop is
strictly inside its gate. -/
theorem firstValidMatch_range (find : String → String → Option String) (mainText : String)
    (lo hi : Int) :
    ∀ (patterns : List String) (v : Int),
      firstValidMatch find mainText lo hi patterns = some v → lo < v ∧ v < hi := by
  intro patterns
  induction patterns with
  | nil => intro v h; simp [firstValidMatch] at h
  | cons p rest ih =>
    intro v h
    simp only [firstValidMatch] at h
    cases hfind : find ("(?i)" ++ p) mainText with
    | none => simp only [hfind] at h; exact ih v h
    | some m =>
      simp only [hfind] at h
      cases hat : goAtoi m with
      | none => simp only [hat] at h; exact ih v h
      | some w =>
        simp only [hat] at h
        by_cases hr : lo < w ∧ w < hi
        · rw [if_pos hr] at h
          obtain rfl : w = v := Option.some.inj h
          exact hr
        · rw [if_neg hr] at h; exact ih v h

/-- C2: in the pattern-based extractor of `internal/scraper/intimcity.go`
every numeric bounded field is unset (0) or within its plausibility range
(age 17-79, height 141-219, weight 31-149, breast size 1-9), whatever the
regexp engine returns — in particular the claim's scenario "Возраст 15"
leaves the age unset; but the id-based extractor revision of
`src/unnamed/part_001` stores the out-of-range age 15 verbatim, violating the
invariant the specification states. -/
theorem c2_plausibility_invariant :
    (∀ (find : String → String → Option String) (mainText : String),
      ((extractPersonalInfo find mainText).age = 0 ∨
        (17 ≤ (extractPersonalInfo find mainText).age ∧
          (extractPersonalInfo find mainText).age ≤ 79)) ∧
      ((extractPersonalInfo find mainText).height = 0 ∨
        (141 ≤ (extractPersonalInfo find mainText).height ∧
          (extractPersonalInfo find mainText).height ≤ 219)) ∧
      ((extractPersonalInfo find mainText).weight = 0 ∨
        (31 ≤ (extractPersonalInfo find mainText).weight ∧
          (extractPersonalInfo find mainText).weight ≤ 149)) ∧
      ((extractPersonalInfo find mainText).breastSize = 0 ∨
        (1 ≤ (extractPersonalInfo find mainText).breastSize ∧
          (extractPersonalInfo find mainText).breastSize ≤ 9))) ∧
    (extractPersonalInfo (fun _ _ => some "15") "Возраст 15").age = 0 ∧
    (extractPersonalInfoById { tdankage := "15" }).age = 15 ∧
    ¬ ((15 : Int) = 0 ∨ (17 ≤ (15 : Int) ∧ (15 : Int) ≤ 79)) := by
  refine ⟨?_, by decide, by decide, by decide⟩
  intro find mainText
  refine ⟨?_, ?_, ?_, ?_⟩
  · cases hv : firstValidMatch find mainText 16 80 agePatterns with
    | none => left; simp [extractPersonalInfo, hv]
    | some v =>
      right
      have hr := firstValidMatch_range find mainText 16 80 agePatterns v hv
      simp only [extractPersonalInfo, hv, Option.getD_some]
      omega
  · cases hv : firstValidMatch find mainText 140 220 heightPatterns with
    | none => left; simp [extractPersonalInfo, hv]
    | some v =>
      right
      have hr := firstValidMatch_range find mainText 140 220 heightPatterns v hv
      simp only [extractPersonalInfo, hv, Option.getD_some]
      omega
  · cases hv : firstValidMatch find mainText 30 150 weightPatterns with
    | none => left; simp [extractPersonalInfo, hv]
    | some v =>
      right
      have hr := firstValidMatch_range find mainText 30 150 weightPatterns v hv
      simp only [extractPersonalInfo, hv, Option.getD_some]
      omega
  · cases hv : firstValidMatch find mainText 0 10 breastPatterns with
    | none => left; simp [extractPersonalInfo, hv]
    | some v =>
      right
      have hr := firstValidMatch_range find mainText 0 10 breastPatterns v hv
      simp only [extractPersonalInfo, hv, Option.getD_some]
      omega

/-! ## Claim C3 -/

/-- C3 counterexample: with ordinary (ASCII) spaces — the characters the
claim's own example uses — `extractPrice "8 000 ₽"` yields 0, not 8000,
because the second `ReplaceAll` of the source starts over from `text` and
discards the removal of ordinary spaces; and the free-standing token "12"
yields no price at all, because the heuristic's guard requires the cell text
to contain "000" or have byte length strictly between 2 and 8. -/
theorem c3_price_cleaning_counterexample :
    extractPrice "8 000 ₽" = 0 ∧
    extractPrice "8 000 ₽" ≠ 8000 ∧
    extractBasePriceToken "12" = none := by decide

/-- C3 (amended): the cleaning step removes the narrow no-break space U+202F,
the thin space U+2009 and the ruble glyph — but not ordinary spaces — so
"8 000 ₽" parses to 8000 exactly when its separators are narrow no-break
spaces; the bare-token heuristic runs only on texts containing "000" or of
byte length 3..7, multiplies the leading numeric run by 1000 when it lies in
[5, 100] (so "12 000" yields 12000 while bare "12" yields nothing), accepts
it unchanged when in [1000, 100000], and otherwise stores nothing (so "500"
yields no price); consequently every stored value is either a thousandfold of
[5, 100] or lies in [1000, 100000]. -/
theorem c3_price_cleaning_amended (text : String) (p : Int)
    (h : extractBasePriceToken text = some p) :
    ((∃ v : Int, 5 ≤ v ∧ v ≤ 100 ∧ p = v * 1000) ∨ (1000 ≤ p ∧ p ≤ 100000)) ∧
    extractPrice "8\u202F000\u202F₽" = 8000 ∧
    extractBasePriceToken "12 000" = some 12000 ∧
    extractBasePriceToken "8000" = some 8000 ∧
    extractBasePriceToken "500" = none ∧
    extractBasePriceToken "12" = none := by
  refine ⟨?_, by decide, by decide, by decide, by decide, by decide⟩
  unfold extractBasePriceToken at h
  split at h
  · cases hd : firstDigitRun text.data with
    | none =>
      simp only [hd] at h
      exact Option.noConfusion h
    | some digits =>
      simp only [hd] at h
      cases ha : goAtoi digits with
      | none =>
        simp only [ha] at h
        exact Option.noConfusion h
      | some price =>
        simp only [ha] at h
        split at h
        · rename_i hband
          obtain hp : toInt32 (price * 1000) = p := Option.some.inj h
          left
          refine ⟨price, hband.1, hband.2, ?_⟩
          simp only [toInt32] at hp
          omega
        · split at h
          · rename_i hband
            obtain hp : toInt32 price = p := Option.some.inj h
            right
            simp only [toInt32] at hp
            omega
          · simp at h
  · simp at h

/-- Witness for C3 (amended) at the thousands-shorthand cell text "12 000". -/
theorem c3_price_cleaning_amended_witness :
    extractBasePriceToken "12 000" = some 12000 ∧
    ((∃ v : Int, 5 ≤ v ∧ v ≤ 100 ∧ (12000 : Int) = v * 1000) ∨
      (1000 ≤ (12000 : Int) ∧ (12000 : Int) ≤ 100000)) :=
  ⟨by decide, (c3_price_cleaning_amended "12 000" 12000 (by decide)).1⟩

/-! ## Claim C4 -/

/-- The source's inline priority chain (structured slots checked `> 0`, then
legacy keys checked for presence) computes exactly the specification's
four-step chain read directly off the raw duration-price map. -/
theorem chain_code_eq_spec (dp : List (String × Int)) (p1 p2 l1 l2 : String) :
    (if structuredSlot dp p1 > 0 then structuredSlot dp p1
     else if structuredSlot dp p2 > 0 then structuredSlot dp p2
     else match lookupPrice dp l1 with
       | some p => toUInt32 p
       | none =>
         match lookupPrice dp l2 with
         | some p => toUInt32 p
         | none => 0)
    = specPriceChain dp p1 p2 l1 l2 := by
  cases h1 : lookupPrice dp p1 <;> cases h2 : lookupPrice dp p2 <;>
    cases h3 : lookupPrice dp l1 <;> cases h4 : lookupPrice dp l2 <;>
      simp only [specPriceChain, specPositiveSlot, specLegacySlot, structuredSlot,
        h1, h2, h3, h4, Option.map_some', Option.map_none'] <;>
      split_ifs <;> simp_all

/-- C4: `FlattenListing` computes the legacy flattened prices by the fixed
priority order the specification states — `price_hour` from
`apartments_day_hour` if positive, else `outcall_day_hour` if positive, else
the legacy key `час`, else `hour`, else unset; `price_2_hours`, `price_night`
analogously; `price_day` from the 2-hour apartment/outcall values then `день`
then `day`; `price_base` from the explicit `base` key if present, else the
computed `price_hour`. -/
theorem c4_flatten_priority (l : Listing) (pi : PricingInfo) (sourceURL : String)
    (h : l.pricingInfo = some pi) :
    (FlattenListing l sourceURL).priceHour
        = specPriceChain pi.durationPrices "apartments_day_hour" "outcall_day_hour"
            "час" "hour" ∧
    (FlattenListing l sourceURL).price2Hours
        = specPriceChain pi.durationPrices "apartments_day_2hour" "outcall_day_2hour"
            "2 часа" "2 hours" ∧
    (FlattenListing l sourceURL).priceNight
        = specPriceChain pi.durationPrices "apartments_night_hour" "outcall_night_hour"
            "ночь" "night" ∧
    (FlattenListing l sourceURL).priceDay
        = specPriceChain pi.durationPrices "apartments_day_2hour" "outcall_day_2hour"
            "день" "day" ∧
    (FlattenListing l sourceURL).priceBase = specPriceBase pi.durationPrices := by
  simp only [FlattenListing, h]
  refine ⟨?_, ?_, ?_, ?_, ?_⟩
  · exact chain_code_eq_spec pi.durationPrices "apartments_day_hour" "outcall_day_hour"
      "час" "hour"
  · exact chain_code_eq_spec pi.durationPrices "apartments_day_2hour" "outcall_day_2hour"
      "2 часа" "2 hours"
  · exact chain_code_eq_spec pi.durationPrices "apartments_night_hour" "outcall_night_hour"
      "ночь" "night"
  · exact chain_code_eq_spec pi.durationPrices "apartments_day_2hour" "outcall_day_2hour"
      "день" "day"
  · unfold specPriceBase specLegacySlot
    cases hb : lookupPrice pi.durationPrices "base" with
    | some v => simp only [hb, Option.map_some']
    | none =>
      simp only [hb, Option.map_none']
      exact chain_code_eq_spec pi.durationPrices "apartments_day_hour" "outcall_day_hour"
        "час" "hour"

/-- Witness for C4 at a record where the one-hour apartment slot is absent,
the outcall slot is set, a legacy day key is present and an explicit base key
exists. -/
theorem c4_flatten_priority_witness :
    (FlattenListing
      { pricingInfo := some
          { currency := "RUB"
            durationPrices :=
              [("outcall_day_hour", 3000), ("день", 7000), ("base", 1500)]
            servicePrices := [] } }
      "https://a.intimcity.gold/anketa1.htm").priceHour = 3000 ∧
    (FlattenListing
      { pricingInfo := some
          { currency := "RUB"
            durationPrices :=
              [("outcall_day_hour", 3000), ("день", 7000), ("base", 1500)]
            servicePrices := [] } }
      "https://a.intimcity.gold/anketa1.htm").priceDay = 7000 ∧
    (FlattenListing
      { pricingInfo := some
          { currency := "RUB"
            durationPrices :=
              [("outcall_day_hour", 3000), ("день", 7000), ("base", 1500)]
            servicePrices := [] } }
      "https://a.intimcity.gold/anketa1.htm").priceBase = 1500 := by
  have h := c4_flatten_priority
    { pricingInfo := some
        { currency := "RUB"
          durationPrices :=
            [("outcall_day_hour", 3000), ("день", 7000), ("base", 1500)]
          servicePrices := [] } }
    { currency := "RUB"
      durationPrices := [("outcall_day_hour", 3000), ("день", 7000), ("base", 1500)]
      servicePrices := [] }
    "https://a.intimcity.gold/anketa1.htm" rfl
  refine ⟨?_, ?_, ?_⟩
  · rw [h.1]; decide
  · rw [h.2.2.2.1]; decide
  · rw [h.2.2.2.2]; decide

/-! ## Claim C6 -/

/-- The claim's classification rule, modelled from the spec's words: a genuine
listing link iff some numeric-ID pattern matches AND no exclusion pattern
occurs in the URL. -/
def claimIsListingLink (url : String) : Bool :=
  let urlLower := toLowerStr url
  listingPatterns.any (fun p => containsStemDigit p.data urlLower.data)
    && !(excludePatterns.any (fun p => hasSubstr urlLower p))

/-- C6 counterexample: a URL that matches a numeric-ID pattern *and* an
exclusion pattern (`page=`).  The claim's rule classifies it as not a listing,
but `isListingLink` returns `true`: the source's first loop returns as soon as
a listing pattern matches, before the exclusions are ever consulted. -/
theorem c6_listing_link_counterexample :
    isListingLink "https://a.intimcity.gold/anketa123.htm?page=2" = true ∧
    claimIsListingLink "https://a.intimcity.gold/anketa123.htm?page=2" = false ∧
    hasSubstr (toLowerStr "https://a.intimcity.gold/anketa123.htm?page=2") "page=" = true := by
  decide

/-- C6 (amended): `isListingLink` classifies a URL as a listing link iff the
lowercased URL matches one of the numeric-ID patterns; the exclusion patterns
are consulted only when no numeric-ID pattern matched, and in that case the
function returns `false` regardless, so they never affect the outcome.  The
classification remains a pure function of the URL string. -/
theorem c6_listing_link_amended (url : String) :
    isListingLink url
      = listingPatterns.any (fun p => containsStemDigit p.data (toLowerStr url).data) := by
  by_cases h : listingPatterns.any
      (fun p => containsStemDigit p.data (toLowerStr url).data) = true
  · simp [isListingLink, h]
  · simp [isListingLink, h]

/-- Witness for C6 (amended) at a known-good listing URL. -/
theorem c6_listing_link_amended_witness :
    isListingLink "https://a.intimcity.gold/anketa456.htm"
      = listingPatterns.any (fun p =>
          containsStemDigit p.data (toLowerStr "https://a.intimcity.gold/anketa456.htm").data) ∧
    isListingLink "https://a.intimcity.gold/anketa456.htm" = true :=
  ⟨c6_listing_link_amended "https://a.intimcity.gold/anketa456.htm", by decide⟩

/-! ## Claim C7 -/

/-- C7: the continuous monitor has no cross-cycle visited set.  With a single
page that always yields the same single (per-page deduplicated) link, two
cycles emit the link twice — the second cycle re-emits everything instead of
emitting zero new links.  `removeDuplicateLinks` deduplicates only within one
page's scrape. -/
theorem c7_reemission_across_cycles :
    runCycles (fun _ => some (removeDuplicateLinks
        [⟨"https://a.intimcity.gold/anketa123.htm", "t", "123"⟩])) 1 2
      = ["https://a.intimcity.gold/anketa123.htm",
         "https://a.intimcity.gold/anketa123.htm"] ∧
    ¬ (runCycles (fun _ => some (removeDuplicateLinks
        [⟨"https://a.intimcity.gold/anketa123.htm", "t", "123"⟩])) 1 2).Nodup ∧
    removeDuplicateLinks
        [⟨"https://a.intimcity.gold/anketa123.htm", "t", "123"⟩,
         ⟨"https://a.intimcity.gold/anketa123.htm", "t", "123"⟩]
      = [⟨"https://a.intimcity.gold/anketa123.htm", "t", "123"⟩] := by
  decide

/-! ## Claim C8 -/

/-- C8 counterexample: when the fetch of the main page fails (`none`),
`getTotalPages` propagates the error (`return 0, err`) instead of returning at
least 1 — refuting "total-page discovery never errors". -/
theorem c8_total_pages_counterexample : getTotalPages none = none := rfl

/-- C8 (amended): provided the main-page fetch succeeds, `getTotalPages` never
errors and returns at least 1: the maximum page number over the pagination
links (both `page=`-style `href` parameters and all-digit link texts), else
the numeric-ellipsis body-text pattern, else exactly 1.  When the fetch
fails, the fetch error is returned instead. -/
theorem c8_total_pages_amended (doc : GoldDoc) :
    (∃ n : Nat, getTotalPages (some doc) = some n ∧ 1 ≤ n) ∧
    getTotalPages (some { links := [(some "/?page=145", "последняя")], text := "" })
      = some 145 ∧
    getTotalPages (some { links := [(some "/x", "7")], text := "" }) = some 7 ∧
    getTotalPages (some { links := [], text := "1 2 3 4 5 ... 145" }) = some 145 ∧
    getTotalPages (some { links := [], text := "" }) = some 1 := by
  refine ⟨?_, by decide, by decide, by decide, by decide⟩
  have hpos : ∀ M : Nat, 1 ≤ (if M = 0 then 1 else M) := by
    intro M
    split <;> omega
  simp only [getTotalPages]
  exact ⟨_, rfl, hpos _⟩

/-- Witness for C8 (amended) at a document with no pagination hints at all. -/
theorem c8_total_pages_amended_witness :
    (∃ n : Nat, getTotalPages (some { links := [], text := "нет ссылок" }) = some n ∧ 1 ≤ n) :=
  (c8_total_pages_amended { links := [], text := "нет ссылок" }).1

/-- Witness for C2 at the claim's scenario: an oracle that matches "15" for
every age pattern still leaves the age field unset. -/
theorem c2_plausibility_invariant_witness :
    ((extractPersonalInfo (fun _ _ => some "15") "Возраст 15").age = 0 ∨
      (17 ≤ (extractPersonalInfo (fun _ _ => some "15") "Возраст 15").age ∧
        (extractPersonalInfo (fun _ _ => some "15") "Возраст 15").age ≤ 79)) :=
  (c2_plausibility_invariant.1 (fun _ _ => some "15") "Возраст 15").1
